import Mathlib

/-
Shallow embedding of the conversation turn-taking logic of a voice-driven
conversational web front-end.

Embedded source files:
- SpeechProcessor.tsx, consolidated draft (the draft with conversationStarted,
  isRecognitionActiveRef, toggleConversation, streaming processUserMessage):
  the turn controller state machine.
- apiService.ts, streaming draft (streamResponseAndSpeak with Groq streaming,
  sentence-boundary flushing to the ElevenLabs endpoint, and playChunk gapless
  scheduling): the response stream client.
- apiService.ts, non-streaming Groq draft (generateLLMResponse with the
  trailing bracket expression tag): the expression extraction path, together
  with the first SpeechProcessor draft that forwards llmResponse.expression.

Modelling conventions:
- JavaScript strings are modelled as lists of characters (JStr), so that all
  text manipulation is structural and decidable.
- The single-threaded event loop is modelled as a step function on an explicit
  controller state, driven by events (user clicks, recognition callbacks,
  stream callbacks, timer firings). Timer events are allowed to fire at any
  point, which over-approximates the set of schedules the browser can produce;
  the exhibited concrete traces only fire timers that the preceding events
  actually scheduled.
- A successful recognition start is collapsed with the platform onstart
  callback (the only way the capture session becomes active is a successful
  recognitionRef.start call, whose onstart handler sets the active flags).
- Network outcomes (response.ok, synthesis failures, decoded buffer durations,
  the audio clock) are oracle inputs to the embedded functions.
- Audio timestamps are rationals; the 0.05 second constant of playChunk is
  1/20 and the 120-character flush threshold is literal.
-/

/-- Characters of a JavaScript string. -/
abbrev JStr := List Char

/-- JavaScript String.prototype.trim: remove whitespace from both ends. -/
def jsTrim (s : JStr) : JStr :=
  ((s.dropWhile Char.isWhitespace).reverse.dropWhile Char.isWhitespace).reverse

/-!
## Response stream client: text buffering (streamResponseAndSpeak loop)

Source (apiService.ts, streaming draft): as each delta arrives it is appended
to fullText and pendingText; when pendingText includes a period, an
exclamation mark, a question mark, or its length exceeds 120, the whole
pendingText is sent to the synthesis endpoint and the buffer is cleared.
-/

/-- Flush heuristic of the streaming loop: pendingText includes a period,
exclamation mark or question mark, or its length exceeds 120. -/
def shouldFlush (p : JStr) : Bool :=
  p.contains '.' || p.contains '!' || p.contains '?' || decide (p.length > 120)

/-- Accumulator of the delta loop: fullText, pendingText, and the list of text
spans handed to the synthesis request so far (in order). -/
structure BufAcc where
  fullText : JStr
  pending : JStr
  flushes : List JStr
deriving DecidableEq

/-- One delta of the Groq stream: skipped when empty (the source guards with
if (delta)); otherwise appended to fullText and pendingText, and the whole
pendingText is flushed when the heuristic fires. -/
def stepDelta (a : BufAcc) (d : JStr) : BufAcc :=
  if d.isEmpty then a
  else
    let p := a.pending ++ d
    if shouldFlush p then ⟨a.fullText ++ d, [], a.flushes ++ [p]⟩
    else ⟨a.fullText ++ d, p, a.flushes⟩

/-- The delta loop over a whole stream of deltas. -/
def streamBuf (ds : List JStr) : BufAcc := ds.foldl stepDelta ⟨[], [], []⟩

/-!
## Response stream client: observable event trace (streamResponseAndSpeak)

The trace records, in program order: the failure toast and immediate
completion when the language-model request is not ok; the immediate
start-speaking callback; each surfaced text chunk; each synthesis request
(sendToElevenLabs, which itself drops whitespace-only text); the audio buffer
scheduled for each synthesis request whose network round trip succeeds; and
the single completion callback at the end. Synthesis round trips are
asynchronous in the source; the trace linearises each scheduled buffer
immediately after its request, which preserves the program-order facts proved
below (everything follows the start-speaking callback, completion is last).
-/

/-- Observable events of one streamResponseAndSpeak call. -/
inductive SEv where
  | toastNetError
  | completionDone
  | startSpeak
  | textChunk (d : JStr)
  | synthRequest (t : JStr)
  | audioBuf (i : Nat)
deriving DecidableEq

/-- sendToElevenLabs: returns no events for whitespace-only text (the source
guards with if (!text.trim()) return); otherwise issues one synthesis request
and, when the round trip for request number i succeeds (the fail oracle is
false), schedules one audio buffer. Returns the events and the next request
index. -/
def sendTTS (fail : Nat → Bool) (i : Nat) (t : JStr) : List SEv × Nat :=
  if (jsTrim t).isEmpty then ([], i)
  else ([SEv.synthRequest t] ++ (if fail i then [] else [SEv.audioBuf i]), i + 1)

/-- Accumulator of the event-producing delta loop. -/
structure EvAcc where
  evs : List SEv
  pending : JStr
  reqIdx : Nat

/-- One delta of the Groq stream, recording the surfaced text chunk and any
flush it triggers. -/
def stepEvDelta (fail : Nat → Bool) (a : EvAcc) (d : JStr) : EvAcc :=
  if d.isEmpty then a
  else
    let p := a.pending ++ d
    if shouldFlush p then
      let r := sendTTS fail a.reqIdx p
      ⟨a.evs ++ [SEv.textChunk d] ++ r.1, [], r.2⟩
    else ⟨a.evs ++ [SEv.textChunk d], p, a.reqIdx⟩

/-- Event trace of one streamResponseAndSpeak call. ok is the oracle for the
language-model response being ok; ds are the parsed content deltas; fail is
the oracle for synthesis round-trip failures, indexed by request number. -/
def streamEvents (ok : Bool) (ds : List JStr) (fail : Nat → Bool) : List SEv :=
  if !ok then [SEv.toastNetError, SEv.completionDone]
  else
    let a := ds.foldl (stepEvDelta fail) ⟨[SEv.startSpeak], [], 0⟩
    a.evs ++ (if a.pending.isEmpty then [] else (sendTTS fail a.reqIdx a.pending).1)
      ++ [SEv.completionDone]

/-- Synthesis request texts of a trace, in order. -/
def synthTexts (evs : List SEv) : List JStr :=
  evs.filterMap fun e => match e with | SEv.synthRequest t => some t | _ => none

/-- Request indices of the audio buffers scheduled by a trace, in order. -/
def audioIdxs (evs : List SEv) : List Nat :=
  evs.filterMap fun e => match e with | SEv.audioBuf i => some i | _ => none

/-- Number of completion callbacks in a trace. -/
def doneCount (evs : List SEv) : Nat :=
  evs.countP fun e => match e with | SEv.completionDone => true | _ => false

/-- Number of start-speaking callbacks in a trace. -/
def startSpeakCount (evs : List SEv) : Nat :=
  evs.countP fun e => match e with | SEv.startSpeak => true | _ => false

/-!
## Response stream client: audio scheduling (playChunk)

Source: let nextStartTime = 0; for each decoded chunk,
source.start(nextStartTime) and then
nextStartTime = Math.max(audioContext.currentTime,
nextStartTime + audioBuffer.duration - 0.05).
-/

/-- One decoded audio chunk: the audio-context clock value observed when it is
scheduled, and the decoded buffer duration (seconds, as rationals). -/
structure Chunk where
  ct : ℚ
  dur : ℚ
deriving DecidableEq

/-- The nextStartTime update of playChunk. -/
def schedNext (nst : ℚ) (c : Chunk) : ℚ := max c.ct (nst + c.dur - 1/20)

/-- Start arguments passed to source.start for each chunk, starting from a
given nextStartTime. -/
def startTimesFrom (nst : ℚ) : List Chunk → List ℚ
  | [] => []
  | c :: cs => nst :: startTimesFrom (schedNext nst c) cs

/-- Start arguments passed to source.start for each chunk of a response
(nextStartTime is initialised to 0). -/
def startTimes (cs : List Chunk) : List ℚ := startTimesFrom 0 cs

/-!
## Expression extraction (generateLLMResponse, non-streaming Groq draft)

Source: let expression = "neutral"; const m = responseText.match of the
anchored pattern bracket-group-bracket-end; if m then expression = m[1] and
responseText = responseText.replace(pattern, "").trim(). The catch branch
returns the fallback text with expression "concerned".
-/

/-- Leftmost opening bracket from which the anchored pattern can match: the
group (everything after the bracket) must contain no line terminator, since
the dot of the pattern does not match one. Returns the text before the
bracket and the group. -/
def findTag : JStr → Option (JStr × JStr)
  | [] => none
  | c :: rest =>
    if c = '[' && !(rest.contains '\n' || rest.contains '\r') then some ([], rest)
    else
      match findTag rest with
      | some (b, g) => some (c :: b, g)
      | none => none

/-- Match of the anchored trailing-tag pattern against a whole response text:
the text must end with a closing bracket, and the group runs from the leftmost
viable opening bracket to that final closing bracket. -/
def tagMatch (s : JStr) : Option (JStr × JStr) :=
  if s.getLast? = some ']' then findTag s.dropLast else none

/-- The closed avatar expression set enumerated by the design. -/
def closedExpressionSet : List String :=
  ["neutral", "listening", "thinking", "speaking", "happy", "empathetic"]

/-- Expression values hard-coded at the controller call sites of the first
SpeechProcessor draft (onstart, onplay, onended, processUserMessage). -/
def hardCodedExpressions : List String :=
  ["listening", "speaking", "neutral", "thinking"]

/-- Result of generateLLMResponse. -/
structure LLMResponse where
  text : JStr
  expression : String
deriving DecidableEq

/-- generateLLMResponse, non-streaming Groq draft. netFail covers a non-ok
response or any thrown error (the catch branch); content is the message
content of a successful response. On success the trailing bracket tag, if
any, becomes the expression and is stripped from the text. -/
def generateLLMResponse (netFail : Bool) (content : JStr) : LLMResponse :=
  if netFail then
    ⟨"I\u0027m having trouble connecting to my thinking capabilities. Could you try again?".data,
     "concerned"⟩
  else
    match tagMatch content with
    | some (before, tag) => ⟨jsTrim before, String.mk tag⟩
    | none => ⟨content, "neutral"⟩

/-- The expression value the first SpeechProcessor draft forwards to
onExpressionChange after a response: forwarded only when truthy (nonempty). -/
def forwardedExpression (r : LLMResponse) : Option String :=
  if r.expression = "" then none else some r.expression

/-!
## Turn controller (SpeechProcessor.tsx, consolidated draft)

State fields mirror the component: the isListening and isProcessing React
state, the conversationStarted and permissionGranted flags, the
isRecognitionActiveRef ref, whether recognitionRef currently holds an
instance, the therapist-speaking flag and expression surfaced to the parent,
whether audioSourceRef holds a source (the playAudio path; the streaming
processUserMessage never sets it), and the number of audio buffers scheduled
by the streaming playChunk that have not finished playing (the component keeps
no reference to them). streamInFlight records that a processUserMessage call
has started streamResponseAndSpeak and its callbacks have not completed.
-/

/-- Turn controller state. -/
structure CState where
  isListening : Bool
  isProcessing : Bool
  conversationStarted : Bool
  permissionGranted : Bool
  recognitionActive : Bool
  recognitionSet : Bool
  therapistSpeaking : Bool
  expression : String
  audioSourceSet : Bool
  streamChunksPlaying : Nat
  streamInFlight : Bool
deriving DecidableEq

/-- State at component mount. -/
def initState : CState :=
  ⟨false, false, false, false, false, false, false, "neutral", false, 0, false⟩

/-- Effects the handlers request from the environment. -/
inductive Eff where
  | speechStart
  | speechEnd
  | userMsg (t : JStr)
  | toast (title : String)
  | checkPermission
  | scheduleStart (ms : Nat)
  | scheduleRetry (ms : Nat)
  | schedulePermRecheck (ms : Nat)
deriving DecidableEq

/-- The derived four-state view of the controller. -/
inductive TState where
  | idle
  | listening
  | processing
  | speaking
deriving DecidableEq

/-- Derived turn state: Idle when no conversation is active; otherwise
Speaking while the therapist-speaking flag is set, Processing while a message
is mid-processing, and Listening otherwise. -/
def turnState (s : CState) : TState :=
  if !s.conversationStarted then TState.idle
  else if s.therapistSpeaking then TState.speaking
  else if s.isProcessing then TState.processing
  else TState.listening

/-- startListening: returns without effect when recognition is missing,
already active, or a response is mid-processing; re-checks permission when not
granted; otherwise starts a recognition session (the onstart handler sets the
active flags and the listening expression) and fires onSpeechStart. -/
def startListening (s : CState) : CState × List Eff :=
  if !s.recognitionSet || s.recognitionActive || s.isProcessing then (s, [])
  else if !s.permissionGranted then (s, [Eff.checkPermission])
  else ({ s with recognitionActive := true, isListening := true, expression := "listening" },
        [Eff.speechStart])

/-- stopListening: returns when recognition is missing, or inactive and not
forced; otherwise stops the session, clears the active flags and fires
onSpeechEnd. -/
def stopListening (force : Bool) (s : CState) : CState × List Eff :=
  if !s.recognitionSet || (!s.recognitionActive && !force) then (s, [])
  else ({ s with recognitionActive := false, isListening := false }, [Eff.speechEnd])

/-- toggleConversation. Ending: clear conversationStarted, force-stop
listening when active, stop and disconnect audioSourceRef when set (clearing
the speaking flag and resetting the expression), clear isProcessing. Starting:
re-check permission when not granted (the stale flag read means the call
returns); otherwise set conversationStarted, recreate the recognition
instance, and schedule a listening start in 500 ms. -/
def toggleConversation (s : CState) : CState × List Eff :=
  if s.conversationStarted then
    let s1 := { s with conversationStarted := false }
    let r2 := if s1.recognitionActive then stopListening true s1 else (s1, [])
    let s3 :=
      if r2.1.audioSourceSet then
        { r2.1 with audioSourceSet := false, therapistSpeaking := false, expression := "neutral" }
      else r2.1
    ({ s3 with isProcessing := false }, r2.2)
  else if !s.permissionGranted then (s, [Eff.checkPermission])
  else
    let s1 := { s with conversationStarted := true }
    let r2 := if s1.recognitionSet then stopListening true s1 else (s1, [])
    ({ r2.1 with recognitionSet := true }, r2.2 ++ [Eff.scheduleStart 500])

/-- The conversation button: disabled (its onClick cannot run) while
isProcessing is set; otherwise invokes toggleConversation. -/
def clickConversationButton (s : CState) : CState × List Eff :=
  if s.isProcessing then (s, []) else toggleConversation s

/-- processUserMessage, streaming draft: returns at once for input whose trim
is empty; otherwise sets isProcessing and the thinking expression, stops
listening, and starts streamResponseAndSpeak (recorded as streamInFlight). -/
def processUserMessage (t : JStr) (s : CState) : CState × List Eff :=
  if (jsTrim t).isEmpty then (s, [])
  else
    let s1 := { s with isProcessing := true, expression := "thinking" }
    let r2 := stopListening false s1
    ({ r2.1 with streamInFlight := true }, r2.2)

/-- onresult with a final result: only an active session delivers results;
fires onSpeechEnd and onUserMessage, then processUserMessage. -/
def onRecogResultFinal (t : JStr) (s : CState) : CState × List Eff :=
  if !s.recognitionActive then (s, [])
  else
    let r := processUserMessage t s
    (r.1, [Eff.speechEnd, Eff.userMsg t] ++ r.2)

/-- The two permission-denial recognition error codes. -/
def isPermissionError (e : String) : Bool :=
  e = "not-allowed" || e = "permission-denied"

/-- onerror: aborted errors return at once. Other errors clear the listening
flags and fire onSpeechEnd; a permission denial additionally clears
permissionGranted and conversationStarted, shows the denied toast and
schedules a permission re-check in 1000 ms; any other error schedules an
automatic listening retry in 1000 ms when the conversation is active and no
response is mid-processing. -/
def onRecogError (e : String) (s : CState) : CState × List Eff :=
  if e = "aborted" then (s, [])
  else
    let s1 := { s with isListening := false, recognitionActive := false }
    if isPermissionError e then
      ({ s1 with permissionGranted := false, conversationStarted := false },
       [Eff.speechEnd, Eff.toast "Microphone access denied", Eff.schedulePermRecheck 1000])
    else if s1.conversationStarted && !s1.isProcessing then
      (s1, [Eff.speechEnd, Eff.scheduleRetry 1000])
    else (s1, [Eff.speechEnd])

/-- onend: clears the listening flags; schedules a restart in 500 ms when the
conversation is active, nothing is mid-processing and permission is granted. -/
def onRecogEnd (s : CState) : CState × List Eff :=
  let s1 := { s with isListening := false, recognitionActive := false }
  if s1.conversationStarted && !s1.isProcessing && s1.permissionGranted then
    (s1, [Eff.scheduleStart 500])
  else (s1, [])

/-- The start-speaking callback processUserMessage passes to
streamResponseAndSpeak: sets the speaking flag and expression. -/
def onStreamStartSpeaking (s : CState) : CState × List Eff :=
  if s.streamInFlight then
    ({ s with therapistSpeaking := true, expression := "speaking" }, [])
  else (s, [])

/-- The completion callback processUserMessage passes to
streamResponseAndSpeak: clears the speaking flag, resets the expression,
clears isProcessing, and schedules a listening restart in 400 ms when the
conversation is active and permission is granted. -/
def onStreamDone (s : CState) : CState × List Eff :=
  if s.streamInFlight then
    let s1 := { s with therapistSpeaking := false, expression := "neutral",
                       isProcessing := false, streamInFlight := false }
    if s1.conversationStarted && s1.permissionGranted then (s1, [Eff.scheduleStart 400])
    else (s1, [])
  else (s, [])

/-- The catch branch of processUserMessage: toast, clear the speaking flag and
expression, clear isProcessing, schedule a restart in 600 ms when the
conversation is active and permission is granted. -/
def onStreamCatch (s : CState) : CState × List Eff :=
  if s.streamInFlight then
    let s1 := { s with therapistSpeaking := false, expression := "neutral",
                       isProcessing := false, streamInFlight := false }
    if s1.conversationStarted && s1.permissionGranted then
      (s1, [Eff.toast "Oops!", Eff.scheduleStart 600])
    else (s1, [Eff.toast "Oops!"])
  else (s, [])

/-- checkMicrophonePermission resolving successfully: permission granted and
the recognition instance set up. -/
def onPermissionOk (s : CState) : CState × List Eff :=
  ({ s with permissionGranted := true, recognitionSet := true }, [])

/-- checkMicrophonePermission failing: permission cleared, toast shown, any
active conversation ended. -/
def onPermissionFail (s : CState) : CState × List Eff :=
  ({ s with permissionGranted := false, conversationStarted := false },
   [Eff.toast "Microphone Access Required"])

/-- A streamed audio buffer scheduled by playChunk while the response is in
flight: the component keeps no reference to it. -/
def onChunkSched (s : CState) : CState × List Eff :=
  if s.streamInFlight then
    ({ s with streamChunksPlaying := s.streamChunksPlaying + 1 }, [])
  else (s, [])

/-- A streamed audio buffer finishing playback on its own. -/
def onChunkEnded (s : CState) : CState × List Eff :=
  ({ s with streamChunksPlaying := s.streamChunksPlaying - 1 }, [])

/-- The scheduled callbacks that call startListening, with the guard each call
site re-checks when its timer fires. -/
inductive TimerKind where
  /-- The 500 ms timer of the toggleConversation start path. -/
  | toggleStart
  /-- The 300 ms timer of the conversation-management effect. -/
  | effectHook
  /-- The unguarded 400 ms post-completion and 600 ms post-catch timers, which
  call startListening directly. -/
  | unguarded
  /-- The 1000 ms retry timer of onerror, which recreates the recognition
  instance before starting. -/
  | errorRetry
  /-- The 500 ms restart timer of onend. -/
  | endRestart
deriving DecidableEq

/-- A scheduled startListening timer firing. -/
def onTimerFire (k : TimerKind) (s : CState) : CState × List Eff :=
  match k with
  | TimerKind.toggleStart =>
    if !s.recognitionActive && !s.isProcessing && s.permissionGranted then startListening s
    else (s, [])
  | TimerKind.effectHook =>
    if s.conversationStarted && !s.recognitionActive && !s.isProcessing then startListening s
    else (s, [])
  | TimerKind.unguarded => startListening s
  | TimerKind.errorRetry =>
    if s.conversationStarted && !s.isProcessing && !s.recognitionActive && s.permissionGranted then
      startListening { s with recognitionSet := true }
    else (s, [])
  | TimerKind.endRestart =>
    if s.conversationStarted && !s.isProcessing && !s.recognitionActive && s.permissionGranted then
      startListening s
    else (s, [])

/-- Events of the controller event loop. -/
inductive CEv where
  | permOk
  | permFail
  | click
  | finalResult (t : JStr)
  | recogError (e : String)
  | recogEnd
  | streamStartSpeaking
  | streamDone
  | streamCatch
  | chunkSched
  | chunkEnded
  | timer (k : TimerKind)
deriving DecidableEq

/-- One step of the controller event loop. -/
def stepC (s : CState) (e : CEv) : CState × List Eff :=
  match e with
  | CEv.permOk => onPermissionOk s
  | CEv.permFail => onPermissionFail s
  | CEv.click => clickConversationButton s
  | CEv.finalResult t => onRecogResultFinal t s
  | CEv.recogError e => onRecogError e s
  | CEv.recogEnd => onRecogEnd s
  | CEv.streamStartSpeaking => onStreamStartSpeaking s
  | CEv.streamDone => onStreamDone s
  | CEv.streamCatch => onStreamCatch s
  | CEv.chunkSched => onChunkSched s
  | CEv.chunkEnded => onChunkEnded s
  | CEv.timer k => onTimerFire k s

/-- Run a sequence of events. -/
def runC (s : CState) (evs : List CEv) : CState :=
  evs.foldl (fun s e => (stepC s e).1) s

/-- Reachable controller states. -/
inductive Reach : CState → Prop where
  | init : Reach initState
  | step (s : CState) (e : CEv) : Reach s → Reach (stepC s e).1

/-- Trace reaching a Speaking state: permission granted, conversation started,
its 500 ms timer starts listening, a final transcript arrives, and the stream
fires its start-speaking callback. -/
def traceSpeak : List CEv :=
  [CEv.permOk, CEv.click, CEv.timer TimerKind.toggleStart,
   CEv.finalResult "hi".data, CEv.streamStartSpeaking]

/-- Trace reaching a state with a streamed audio buffer still playing after
the completion callback has fired and the 400 ms timer has restarted
listening. -/
def traceTailAudio : List CEv :=
  traceSpeak ++ [CEv.chunkSched, CEv.streamDone, CEv.timer TimerKind.unguarded]

/-- The flag invariant of the controller: the speaking flag only holds while a
stream is in flight, an in-flight stream only exists mid-processing,
mid-processing the capture session is inactive, and an active capture session
has a recognition instance. -/
def invJ (s : CState) : Prop :=
  (s.therapistSpeaking = true → s.streamInFlight = true) ∧
  (s.streamInFlight = true → s.isProcessing = true) ∧
  (s.isProcessing = true → s.recognitionActive = false) ∧
  (s.recognitionActive = true → s.recognitionSet = true)

theorem invJ_startListening : ∀ s : CState, invJ s → invJ (startListening s).1 := by
  rintro ⟨l, p, c, g, ra, rs, ts, ex, a, n, f⟩ h
  simp only [invJ] at h ⊢
  simp only [startListening]
  split_ifs <;> simp_all

theorem invJ_step : ∀ (s : CState) (e : CEv), invJ s → invJ (stepC s e).1 := by
  intro s e h
  cases e with
  | timer k =>
    cases k <;> simp only [stepC, onTimerFire] <;> (try split_ifs) <;>
      first
        | exact h
        | exact invJ_startListening _ h
        | (apply invJ_startListening
           obtain ⟨l, p, c, g, ra, rs, ts, ex, a, n, f⟩ := s
           simp only [invJ] at h ⊢
           simp_all)
  | _ =>
    obtain ⟨l, p, c, g, ra, rs, ts, ex, a, n, f⟩ := s
    simp only [invJ] at h ⊢
    simp only [stepC, onPermissionOk, onPermissionFail, clickConversationButton,
      toggleConversation, onRecogResultFinal, processUserMessage, onRecogError, onRecogEnd,
      onStreamStartSpeaking, onStreamDone, onStreamCatch, onChunkSched, onChunkEnded,
      stopListening, startListening]
    (try split_ifs) <;> simp_all

theorem reach_invJ : ∀ s : CState, Reach s → invJ s := by
  intro s h
  induction h with
  | init => simp [invJ, initState]
  | step s e _ ih => exact invJ_step s e ih

theorem reach_runC : ∀ (evs : List CEv) (s : CState), Reach s → Reach (runC s evs) := by
  intro evs
  induction evs with
  | nil => intro s h; exact h
  | cons e evs ih =>
    intro s h
    exact ih (stepC s e).1 (Reach.step s e h)

/-- Claim C1 (amended): in every reachable controller state, while the
Speaking flag is set (between the start-speaking callback and the completion
callback of the response stream), the capture session is inactive; listening
is stopped before a final transcript is processed. Listening is resumed by
fixed timers after the completion callback, not by draining the scheduled
audio, so capture can be re-acquired while a streamed buffer is still playing
(see the counterexample). -/
theorem speaking_capture_exclusion (s : CState) (h : Reach s)
    (hs : s.therapistSpeaking = true) : s.recognitionActive = false := by
  have j := reach_invJ s h
  exact j.2.2.1 (j.2.1 (j.1 hs))

/-- Witness for claim C1: a concrete reachable Speaking state (conversation
started, final transcript processed, start-speaking callback fired) in which
capture is indeed inactive. -/
theorem speaking_capture_exclusion_witness :
    (runC initState traceSpeak).recognitionActive = false :=
  speaking_capture_exclusion (runC initState traceSpeak)
    (reach_runC traceSpeak initState Reach.init) (by decide)

/-- Counterexample for claim C1 as stated: a reachable state in which the
capture session is active while a streamed audio buffer of the current
response is still playing. The completion callback fires on a fixed 800 ms
grace timer after the language-model stream ends and the controller restarts
listening 400 ms later, regardless of how much scheduled audio remains, so
listening is restarted before the audio playback of the response has
completed. -/
theorem capture_active_while_audio_playing :
    Reach (runC initState traceTailAudio) ∧
    (runC initState traceTailAudio).recognitionActive = true ∧
    (runC initState traceTailAudio).streamChunksPlaying = 1 :=
  ⟨reach_runC traceTailAudio initState Reach.init, by decide, by decide⟩

/-- Claim C2 (code bug): evaluation at the failing input. From a reachable
state in which the conversation is active, the response stream has completed,
listening has resumed, and one audio buffer scheduled by the streaming
playChunk is still playing, invoking the stop-conversation action does drive
the controller to Idle and stop the capture session, but the scheduled buffer
keeps playing: toggleConversation only stops the source tracked by
audioSourceRef, which the streaming path never sets, so no scheduled or
playing streamed buffer is stopped or disconnected. -/
theorem stop_leaves_streamed_audio_playing :
    Reach (runC initState traceTailAudio) ∧
    (runC initState traceTailAudio).conversationStarted = true ∧
    (runC initState traceTailAudio).streamChunksPlaying = 1 ∧
    (clickConversationButton (runC initState traceTailAudio)).1.conversationStarted = false ∧
    turnState (clickConversationButton (runC initState traceTailAudio)).1 = TState.idle ∧
    (clickConversationButton (runC initState traceTailAudio)).1.recognitionActive = false ∧
    (clickConversationButton (runC initState traceTailAudio)).1.streamChunksPlaying = 1 :=
  ⟨reach_runC traceTailAudio initState Reach.init, by decide, by decide, by decide,
   by decide, by decide, by decide⟩

/-- Claim C3: for any originating state, a permission-denial recognition error
(not-allowed or permission-denied) clears the conversation-active flag,
drives the derived turn state to Idle and surfaces the user-facing
microphone-denied toast; any other recognition error except aborted schedules
the fixed-delay (1000 ms) automatic listening retry exactly when the
conversation is active and the controller is not mid-processing. -/
theorem recognition_error_policy (s : CState) (e : String) :
    (isPermissionError e = true →
      (onRecogError e s).1.conversationStarted = false ∧
      turnState (onRecogError e s).1 = TState.idle ∧
      Eff.toast "Microphone access denied" ∈ (onRecogError e s).2) ∧
    (isPermissionError e = false → e ≠ "aborted" →
      (Eff.scheduleRetry 1000 ∈ (onRecogError e s).2 ↔
        s.conversationStarted = true ∧ s.isProcessing = false)) := by
  constructor
  · intro hp
    have habort : ¬e = "aborted" := by
      intro hab
      simp [hab, isPermissionError] at hp
    simp [onRecogError, habort, hp, turnState]
  · intro hp hab
    simp only [onRecogError, if_neg hab, hp, if_neg (by simp [hp] : ¬isPermissionError e = true)]
    by_cases hc : s.conversationStarted = true ∧ s.isProcessing = false
    · simp [hc.1, hc.2]
    · rcases not_and_or.mp hc with hc1 | hc2
      · have : s.conversationStarted = false := by simpa using hc1
        simp [this]
      · have : s.isProcessing = true := by simpa using hc2
        simp [this]

/-- Witness for claim C3, at the initial state and the not-allowed error. -/
theorem recognition_error_policy_witness :
    (isPermissionError "not-allowed" = true →
      (onRecogError "not-allowed" initState).1.conversationStarted = false ∧
      turnState (onRecogError "not-allowed" initState).1 = TState.idle ∧
      Eff.toast "Microphone access denied" ∈ (onRecogError "not-allowed" initState).2) ∧
    (isPermissionError "not-allowed" = false → "not-allowed" ≠ "aborted" →
      (Eff.scheduleRetry 1000 ∈ (onRecogError "not-allowed" initState).2 ↔
        initState.conversationStarted = true ∧ initState.isProcessing = false)) :=
  recognition_error_policy initState "not-allowed"

/-- Claim C10: processing a final transcript whose trim is empty is a no-op:
the state (in particular isProcessing and the in-flight stream flag, which
records the language-model request) is unchanged and no effect is produced. -/
theorem empty_transcript_noop (s : CState) (t : JStr) (h : jsTrim t = []) :
    processUserMessage t s = (s, []) := by
  simp [processUserMessage, h]

/-- Witness for claim C10, at a whitespace-only transcript. -/
theorem empty_transcript_noop_witness :
    processUserMessage "  ".data initState = (initState, []) :=
  empty_transcript_noop initState "  ".data (by decide)

theorem shouldFlush_nil : shouldFlush [] = false := by decide

theorem foldl_stepDelta_inv : ∀ (ds : List JStr) (a : BufAcc),
    a.flushes.flatten ++ a.pending = a.fullText →
    (∀ f ∈ a.flushes, shouldFlush f = true) →
    shouldFlush a.pending = false →
    ((ds.foldl stepDelta a).flushes.flatten ++ (ds.foldl stepDelta a).pending
        = (ds.foldl stepDelta a).fullText) ∧
    (∀ f ∈ (ds.foldl stepDelta a).flushes, shouldFlush f = true) ∧
    shouldFlush (ds.foldl stepDelta a).pending = false ∧
    (ds.foldl stepDelta a).fullText = a.fullText ++ ds.flatten := by
  intro ds
  induction ds with
  | nil =>
    intro a h1 h2 h3
    simpa using ⟨h1, h2, h3⟩
  | cons d ds ih =>
    intro a h1 h2 h3
    simp only [List.foldl_cons, List.flatten_cons]
    rcases Decidable.em (d = []) with hde | hde
    · subst hde
      have r := ih a h1 h2 h3
      simpa [stepDelta] using r
    · have hne : d.isEmpty = false := by
        cases d with
        | nil => exact absurd rfl hde
        | cons c cs => rfl
      rcases Decidable.em (shouldFlush (a.pending ++ d) = true) with hf | hf
      · have r := ih ⟨a.fullText ++ d, [], a.flushes ++ [a.pending ++ d]⟩
          (by simp [List.flatten_append, ← h1, List.append_assoc])
          (by
            intro f hfm
            rcases List.mem_append.mp hfm with hl | hr
            · exact h2 f hl
            · simp at hr
              subst hr
              exact hf)
          shouldFlush_nil
        have hst : stepDelta a d = ⟨a.fullText ++ d, [], a.flushes ++ [a.pending ++ d]⟩ := by
          simp [stepDelta, hne, hf]
        rw [hst]
        refine ⟨r.1, r.2.1, r.2.2.1, ?_⟩
        rw [r.2.2.2]
        simp [List.append_assoc]
      · have hff : shouldFlush (a.pending ++ d) = false := by
          cases hx : shouldFlush (a.pending ++ d) with
          | false => rfl
          | true => exact absurd hx hf
        have r := ih ⟨a.fullText ++ d, a.pending ++ d, a.flushes⟩
          (by simp [← h1, List.append_assoc]) h2 hff
        have hst : stepDelta a d = ⟨a.fullText ++ d, a.pending ++ d, a.flushes⟩ := by
          simp [stepDelta, hne, hff]
        rw [hst]
        refine ⟨r.1, r.2.1, r.2.2.1, ?_⟩
        rw [r.2.2.2]
        simp [List.append_assoc]

/-- Claim C4 (amended): whenever, after appending a delta, the pending buffer
contains a sentence-terminal character or exceeds the length threshold, the
ENTIRE pending buffer (including any text after the terminal character) is
flushed to speech synthesis and the buffer is cleared; the remainder after a
boundary is not retained. Across the whole stream no text is dropped or
duplicated: the flushed spans followed by the retained buffer reconstruct
exactly the concatenation of the deltas, every flushed span satisfies the
flush heuristic, and the retained buffer never does. -/
theorem flush_accounting (ds : List JStr) :
    ((streamBuf ds).flushes.flatten ++ (streamBuf ds).pending = ds.flatten) ∧
    (∀ f ∈ (streamBuf ds).flushes, shouldFlush f = true) ∧
    shouldFlush (streamBuf ds).pending = false ∧
    (streamBuf ds).fullText = ds.flatten := by
  have r := foldl_stepDelta_inv ds ⟨[], [], []⟩ rfl (by intro f hf; simp at hf) shouldFlush_nil
  simp only [streamBuf]
  refine ⟨?_, r.2.1, r.2.2.1, by simpa using r.2.2.2⟩
  rw [r.1]
  simpa using r.2.2.2

/-- Witness for claim C4, on the delta stream Hi, there, exclamation mark:
one flush of the full sentence and an empty retained buffer. -/
theorem flush_accounting_witness :
    (((streamBuf ["Hi".data, " there".data, "!".data]).flushes.flatten
        ++ (streamBuf ["Hi".data, " there".data, "!".data]).pending
        = ["Hi".data, " there".data, "!".data].flatten) ∧
     (∀ f ∈ (streamBuf ["Hi".data, " there".data, "!".data]).flushes, shouldFlush f = true) ∧
     shouldFlush (streamBuf ["Hi".data, " there".data, "!".data]).pending = false ∧
     (streamBuf ["Hi".data, " there".data, "!".data]).fullText
        = ["Hi".data, " there".data, "!".data].flatten) :=
  flush_accounting ["Hi".data, " there".data, "!".data]

/-- Counterexample for claim C4 as stated: on the single delta containing a
sentence terminal followed by more text, the code flushes the whole buffer
(terminal character and trailing text together) and retains nothing, whereas
the claim requires flushing exactly the span up to the boundary and retaining
the remainder after it. -/
theorem flush_not_split_at_boundary :
    (streamBuf ["Hi! How".data]).flushes = ["Hi! How".data] ∧
    (streamBuf ["Hi! How".data]).pending = [] ∧
    ["Hi! How".data] ≠ ["Hi!".data] ∧
    (streamBuf ["Hi! How".data]).pending ≠ " How".data := by
  refine ⟨by decide, by decide, by decide, by decide⟩

theorem startTimesFrom_getD : ∀ (cs : List Chunk) (nst : ℚ) (i : Nat), i + 1 < cs.length →
    (startTimesFrom nst cs).getD (i + 1) 0 =
      max ((cs.getD i ⟨0, 0⟩).ct)
        ((startTimesFrom nst cs).getD i 0 + (cs.getD i ⟨0, 0⟩).dur - 1/20) := by
  intro cs
  induction cs with
  | nil =>
    intro nst i h
    simp at h
  | cons c cs ih =>
    intro nst i h
    cases i with
    | zero =>
      have hcs : cs.length ≥ 1 := by simpa using h
      cases cs with
      | nil => simp at hcs
      | cons c2 cs2 =>
        simp [startTimesFrom, schedNext]
    | succ i =>
      have hlen : i + 1 < cs.length := by simpa using h
      have r := ih (schedNext nst c) i hlen
      simpa [startTimesFrom] using r

/-- Claim C5 (amended): each decoded audio segment after the first is
scheduled to start at the maximum of the audio-context clock observed at
scheduling time and the start time of the previous segment plus its duration MINUS
1/20 second: successive segments are deliberately scheduled to overlap the
tail of the previous one by 0.05 s (when the clock bound does not dominate),
rather than to start exactly at its end time. -/
theorem chunk_schedule_recurrence (cs : List Chunk) (i : Nat) (h : i + 1 < cs.length) :
    (startTimes cs).getD (i + 1) 0 =
      max ((cs.getD i ⟨0, 0⟩).ct)
        ((startTimes cs).getD i 0 + (cs.getD i ⟨0, 0⟩).dur - 1/20) :=
  startTimesFrom_getD cs 0 i h

/-- Witness for claim C5, at two unit-duration chunks scheduled while the
clock reads zero. -/
theorem chunk_schedule_recurrence_witness :
    (startTimes [⟨0, 1⟩, ⟨0, 1⟩]).getD 1 0 =
      max (([⟨0, 1⟩, ⟨0, 1⟩] : List Chunk).getD 0 ⟨0, 0⟩).ct
        ((startTimes [⟨0, 1⟩, ⟨0, 1⟩]).getD 0 0
          + (([⟨0, 1⟩, ⟨0, 1⟩] : List Chunk).getD 0 ⟨0, 0⟩).dur - 1/20) :=
  chunk_schedule_recurrence [⟨0, 1⟩, ⟨0, 1⟩] 0 (by norm_num)

/-- Counterexample for claim C5 as stated: with two unit-duration chunks and
the clock at zero, the first chunk is scheduled at 0 and ends at 1, but the
second is scheduled at 19/20, strictly before the end of the first, not
exactly at its end time: the start intervals overlap by 1/20. -/
theorem chunk_schedule_overlap :
    startTimes [⟨0, 1⟩, ⟨0, 1⟩] = [0, 19/20] ∧
    (19/20 : ℚ) < 0 + 1 ∧
    (19/20 : ℚ) ≠ 0 + 1 := by
  refine ⟨?_, by norm_num, by norm_num⟩
  simp only [startTimes, startTimesFrom, schedNext]
  rw [max_eq_right (by norm_num)]
  norm_num

theorem synthTexts_append (l1 l2 : List SEv) :
    synthTexts (l1 ++ l2) = synthTexts l1 ++ synthTexts l2 := by
  simp [synthTexts]

theorem audioIdxs_append (l1 l2 : List SEv) :
    audioIdxs (l1 ++ l2) = audioIdxs l1 ++ audioIdxs l2 := by
  simp [audioIdxs]

theorem doneCount_append (l1 l2 : List SEv) :
    doneCount (l1 ++ l2) = doneCount l1 + doneCount l2 := by
  simp [doneCount]

theorem startSpeakCount_append (l1 l2 : List SEv) :
    startSpeakCount (l1 ++ l2) = startSpeakCount l1 + startSpeakCount l2 := by
  simp [startSpeakCount]

theorem sendTTS_spec (fail : Nat → Bool) (i : Nat) (t : JStr) :
    startSpeakCount (sendTTS fail i t).1 = 0 ∧
    doneCount (sendTTS fail i t).1 = 0 ∧
    synthTexts (sendTTS fail i t).1 = (if (jsTrim t).isEmpty then [] else [t]) ∧
    (sendTTS fail i t).2 = i + (synthTexts (sendTTS fail i t).1).length ∧
    audioIdxs (sendTTS fail i t).1
      = (if (jsTrim t).isEmpty then [] else (if fail i then [] else [i])) := by
  unfold sendTTS
  split_ifs <;>
    simp_all [startSpeakCount, doneCount, synthTexts, audioIdxs]

theorem foldl_stepEvDelta_shift : ∀ (ds : List JStr) (fail : Nat → Bool)
    (evs : List SEv) (p : JStr) (i : Nat),
    (ds.foldl (stepEvDelta fail) ⟨evs, p, i⟩).evs
      = evs ++ (ds.foldl (stepEvDelta fail) ⟨[], p, i⟩).evs ∧
    (ds.foldl (stepEvDelta fail) ⟨evs, p, i⟩).pending
      = (ds.foldl (stepEvDelta fail) ⟨[], p, i⟩).pending ∧
    (ds.foldl (stepEvDelta fail) ⟨evs, p, i⟩).reqIdx
      = (ds.foldl (stepEvDelta fail) ⟨[], p, i⟩).reqIdx := by
  intro ds fail
  induction ds with
  | nil => intro evs p i; simp
  | cons d ds ih =>
    intro evs p i
    simp only [List.foldl_cons]
    rcases Decidable.em (d = []) with rfl | hne
    · simpa [stepEvDelta] using ih evs p i
    · have hde : d.isEmpty = false := by
        cases d with
        | nil => exact absurd rfl hne
        | cons c cs => rfl
      rcases Decidable.em (shouldFlush (p ++ d) = true) with hf | hf
      · have h1 : stepEvDelta fail ⟨evs, p, i⟩ d
            = ⟨evs ++ [SEv.textChunk d] ++ (sendTTS fail i (p ++ d)).1, [],
               (sendTTS fail i (p ++ d)).2⟩ := by
          simp [stepEvDelta, hde, hf]
        have h2 : stepEvDelta fail ⟨[], p, i⟩ d
            = ⟨[SEv.textChunk d] ++ (sendTTS fail i (p ++ d)).1, [],
               (sendTTS fail i (p ++ d)).2⟩ := by
          simp [stepEvDelta, hde, hf]
        rw [h1, h2]
        have r1 := ih (evs ++ [SEv.textChunk d] ++ (sendTTS fail i (p ++ d)).1) []
          (sendTTS fail i (p ++ d)).2
        have r2 := ih ([SEv.textChunk d] ++ (sendTTS fail i (p ++ d)).1) []
          (sendTTS fail i (p ++ d)).2
        refine ⟨?_, ?_, ?_⟩
        · rw [r1.1, r2.1]
          simp [List.append_assoc]
        · rw [r1.2.1, r2.2.1]
        · rw [r1.2.2, r2.2.2]
      · have hff : shouldFlush (p ++ d) = false := by
          cases hx : shouldFlush (p ++ d) with
          | false => rfl
          | true => exact absurd hx hf
        have h1 : stepEvDelta fail ⟨evs, p, i⟩ d = ⟨evs ++ [SEv.textChunk d], p ++ d, i⟩ := by
          simp [stepEvDelta, hde, hff]
        have h2 : stepEvDelta fail ⟨[], p, i⟩ d = ⟨[SEv.textChunk d], p ++ d, i⟩ := by
          simp [stepEvDelta, hde, hff]
        rw [h1, h2]
        have r1 := ih (evs ++ [SEv.textChunk d]) (p ++ d) i
        have r2 := ih [SEv.textChunk d] (p ++ d) i
        refine ⟨?_, ?_, ?_⟩
        · rw [r1.1, r2.1]
          simp [List.append_assoc]
        · rw [r1.2.1, r2.2.1]
        · rw [r1.2.2, r2.2.2]

theorem foldl_stepEvDelta_spec : ∀ (ds : List JStr) (fail : Nat → Bool) (p : JStr) (i : Nat),
    synthTexts (ds.foldl (stepEvDelta fail) ⟨[], p, i⟩).evs
      = synthTexts (ds.foldl (stepEvDelta (fun _ => false)) ⟨[], p, i⟩).evs ∧
    (ds.foldl (stepEvDelta fail) ⟨[], p, i⟩).pending
      = (ds.foldl (stepEvDelta (fun _ => false)) ⟨[], p, i⟩).pending ∧
    (ds.foldl (stepEvDelta fail) ⟨[], p, i⟩).reqIdx
      = i + (synthTexts (ds.foldl (stepEvDelta fail) ⟨[], p, i⟩).evs).length ∧
    audioIdxs (ds.foldl (stepEvDelta fail) ⟨[], p, i⟩).evs
      = ((List.range (synthTexts (ds.foldl (stepEvDelta fail) ⟨[], p, i⟩).evs).length).map
          (fun k => i + k)).filter (fun j => !fail j) ∧
    doneCount (ds.foldl (stepEvDelta fail) ⟨[], p, i⟩).evs = 0 ∧
    startSpeakCount (ds.foldl (stepEvDelta fail) ⟨[], p, i⟩).evs = 0 := by
  intro ds
  induction ds with
  | nil =>
    intro fail p i
    simp [synthTexts, audioIdxs, doneCount, startSpeakCount]
  | cons d ds ih =>
    intro fail p i
    simp only [List.foldl_cons]
    rcases Decidable.em (d = []) with rfl | hne
    · simpa [stepEvDelta] using ih fail p i
    · have hde : d.isEmpty = false := by
        cases d with
        | nil => exact absurd rfl hne
        | cons c cs => rfl
      rcases Decidable.em (shouldFlush (p ++ d) = true) with hf | hf
      · have h1 : stepEvDelta fail ⟨[], p, i⟩ d
            = ⟨[SEv.textChunk d] ++ (sendTTS fail i (p ++ d)).1, [],
               (sendTTS fail i (p ++ d)).2⟩ := by
          simp [stepEvDelta, hde, hf]
        have h0 : stepEvDelta (fun _ => false) ⟨[], p, i⟩ d
            = ⟨[SEv.textChunk d] ++ (sendTTS (fun _ => false) i (p ++ d)).1, [],
               (sendTTS (fun _ => false) i (p ++ d)).2⟩ := by
          simp [stepEvDelta, hde, hf]
        rw [h1, h0]
        have sh1 := foldl_stepEvDelta_shift ds fail
          ([SEv.textChunk d] ++ (sendTTS fail i (p ++ d)).1) [] (sendTTS fail i (p ++ d)).2
        have sh0 := foldl_stepEvDelta_shift ds (fun _ => false)
          ([SEv.textChunk d] ++ (sendTTS (fun _ => false) i (p ++ d)).1) []
          (sendTTS (fun _ => false) i (p ++ d)).2
        rcases Decidable.em ((jsTrim (p ++ d)).isEmpty = true) with ht | ht
        · have e1 : sendTTS fail i (p ++ d) = ([], i) := by simp [sendTTS, ht]
          have e0 : sendTTS (fun _ => false) i (p ++ d) = ([], i) := by simp [sendTTS, ht]
          rw [e1] at sh1 ⊢
          rw [e0] at sh0 ⊢
          have r := ih fail [] i
          rw [sh1.1, sh1.2.1, sh1.2.2, sh0.1, sh0.2.1]
          simp only [List.append_nil, synthTexts_append, audioIdxs_append, doneCount_append,
            startSpeakCount_append]
          have hsx : synthTexts [SEv.textChunk d] = [] := by simp [synthTexts]
          have hax : audioIdxs [SEv.textChunk d] = [] := by simp [audioIdxs]
          have hdx : doneCount [SEv.textChunk d] = 0 := by simp [doneCount]
          have hsk : startSpeakCount [SEv.textChunk d] = 0 := by simp [startSpeakCount]
          rw [hsx, hax, hdx, hsk]
          simpa using r
        · have htf : (jsTrim (p ++ d)).isEmpty = false := by
            cases hx : (jsTrim (p ++ d)).isEmpty with
            | false => rfl
            | true => exact absurd hx ht
          have e1 : sendTTS fail i (p ++ d)
              = ([SEv.synthRequest (p ++ d)]
                  ++ (if fail i then [] else [SEv.audioBuf i]), i + 1) := by
            simp [sendTTS, htf]
          have e0 : sendTTS (fun _ => false) i (p ++ d)
              = ([SEv.synthRequest (p ++ d), SEv.audioBuf i], i + 1) := by
            simp [sendTTS, htf]
          rw [e1] at sh1 ⊢
          rw [e0] at sh0 ⊢
          have r := ih fail [] (i + 1)
          rw [sh1.1, sh1.2.1, sh1.2.2, sh0.1, sh0.2.1]
          have hcomp : ((fun k => i + k) ∘ Nat.succ) = fun k => (i + 1) + k := by
            funext k
            simp only [Function.comp_apply]
            omega
          rcases Decidable.em (fail i = true) with hfi | hfi
          · refine ⟨?_, r.2.1, ?_, ?_, ?_, ?_⟩
            · rw [synthTexts_append, synthTexts_append, r.1]
              simp [synthTexts, hfi]
            · rw [r.2.2.1, synthTexts_append]
              simp only [synthTexts, hfi, if_pos, List.filterMap_append]
              simp
              omega
            · rw [audioIdxs_append, r.2.2.2.1, synthTexts_append]
              simp only [audioIdxs, synthTexts, hfi, if_pos, List.filterMap_append]
              simp
              rw [List.range_succ_eq_map, List.map_cons, List.map_map, hcomp]
              simp [hfi]
            · rw [doneCount_append, r.2.2.2.2.1]
              simp [doneCount, hfi]
            · rw [startSpeakCount_append, r.2.2.2.2.2]
              simp [startSpeakCount, hfi]
          · have hfi2 : fail i = false := by
              cases hx : fail i with
              | false => rfl
              | true => exact absurd hx hfi
            refine ⟨?_, r.2.1, ?_, ?_, ?_, ?_⟩
            · rw [synthTexts_append, synthTexts_append, r.1]
              simp [synthTexts, hfi2]
            · rw [r.2.2.1, synthTexts_append]
              simp only [synthTexts, hfi2, List.filterMap_append]
              simp
              omega
            · rw [audioIdxs_append, r.2.2.2.1, synthTexts_append]
              simp only [audioIdxs, synthTexts, hfi2, List.filterMap_append]
              simp
              rw [List.range_succ_eq_map, List.map_cons, List.map_map, hcomp]
              simp [hfi2]
            · rw [doneCount_append, r.2.2.2.2.1]
              simp [doneCount, hfi2]
            · rw [startSpeakCount_append, r.2.2.2.2.2]
              simp [startSpeakCount, hfi2]
      · have hff : shouldFlush (p ++ d) = false := by
          cases hx : shouldFlush (p ++ d) with
          | false => rfl
          | true => exact absurd hx hf
        have h1 : stepEvDelta fail ⟨[], p, i⟩ d = ⟨[SEv.textChunk d], p ++ d, i⟩ := by
          simp [stepEvDelta, hde, hff]
        have h0 : stepEvDelta (fun _ => false) ⟨[], p, i⟩ d
            = ⟨[SEv.textChunk d], p ++ d, i⟩ := by
          simp [stepEvDelta, hde, hff]
        rw [h1, h0]
        have sh1 := foldl_stepEvDelta_shift ds fail [SEv.textChunk d] (p ++ d) i
        have sh0 := foldl_stepEvDelta_shift ds (fun _ => false) [SEv.textChunk d] (p ++ d) i
        have r := ih fail (p ++ d) i
        rw [sh1.1, sh1.2.1, sh1.2.2, sh0.1, sh0.2.1]
        simp only [synthTexts_append, audioIdxs_append, doneCount_append,
          startSpeakCount_append]
        have hsx : synthTexts [SEv.textChunk d] = [] := by simp [synthTexts]
        have hax : audioIdxs [SEv.textChunk d] = [] := by simp [audioIdxs]
        have hdx : doneCount [SEv.textChunk d] = 0 := by simp [doneCount]
        have hsk : startSpeakCount [SEv.textChunk d] = 0 := by simp [startSpeakCount]
        rw [hsx, hax, hdx, hsk]
        simpa using r

theorem streamEvents_true_decomp (ds : List JStr) (fail : Nat → Bool) :
    streamEvents true ds fail
      = SEv.startSpeak :: ((ds.foldl (stepEvDelta fail) ⟨[], [], 0⟩).evs
          ++ (if (ds.foldl (stepEvDelta fail) ⟨[], [], 0⟩).pending.isEmpty then []
              else (sendTTS fail (ds.foldl (stepEvDelta fail) ⟨[], [], 0⟩).reqIdx
                     (ds.foldl (stepEvDelta fail) ⟨[], [], 0⟩).pending).1)
          ++ [SEv.completionDone]) := by
  have sh := foldl_stepEvDelta_shift ds fail [SEv.startSpeak] [] 0
  simp only [streamEvents, Bool.not_true, Bool.false_eq_true, if_false]
  rw [sh.1, sh.2.1, sh.2.2]
  simp

theorem synthTexts_startSpeak_cons (l : List SEv) :
    synthTexts (SEv.startSpeak :: l) = synthTexts l := by
  simp [synthTexts]

theorem audioIdxs_startSpeak_cons (l : List SEv) :
    audioIdxs (SEv.startSpeak :: l) = audioIdxs l := by
  simp [audioIdxs]

theorem doneCount_startSpeak_cons (l : List SEv) :
    doneCount (SEv.startSpeak :: l) = doneCount l := by
  simp [doneCount]

theorem startSpeakCount_startSpeak_cons (l : List SEv) :
    startSpeakCount (SEv.startSpeak :: l) = startSpeakCount l + 1 := by
  simp [startSpeakCount]

theorem map_zero_add (l : List Nat) : l.map (fun k => 0 + k) = l := by
  simp

theorem synthTexts_done_singleton : synthTexts [SEv.completionDone] = [] := by
  simp [synthTexts]

theorem audioIdxs_done_singleton : audioIdxs [SEv.completionDone] = [] := by
  simp [audioIdxs]

theorem doneCount_done_singleton : doneCount [SEv.completionDone] = 1 := by
  simp [doneCount]

theorem startSpeakCount_done_singleton : startSpeakCount [SEv.completionDone] = 0 := by
  simp [startSpeakCount]

/-- Claim C8: a failed synthesis round trip for one flush does not change
which flushes are requested (the loop never consults the outcome: the request
promise is not awaited), the single completion callback still fires exactly
once, and exactly the audio segments of the failed requests are missing: the
scheduled segments are those of the non-failing request indices. -/
theorem synth_failure_isolated (ds : List JStr) (fail : Nat → Bool) :
    synthTexts (streamEvents true ds fail)
      = synthTexts (streamEvents true ds (fun _ => false)) ∧
    doneCount (streamEvents true ds fail) = 1 ∧
    audioIdxs (streamEvents true ds fail)
      = (List.range (synthTexts (streamEvents true ds fail)).length).filter
          (fun j => !fail j) := by
  have d1 := streamEvents_true_decomp ds fail
  have d0 := streamEvents_true_decomp ds (fun _ => false)
  obtain ⟨s1, s2, s3, s4, s5, s6⟩ := foldl_stepEvDelta_spec ds fail [] 0
  obtain ⟨s01, s02, s03, s04, s05, s06⟩ := foldl_stepEvDelta_spec ds (fun _ => false) [] 0
  rw [d1, d0, s2]
  have hreq : (ds.foldl (stepEvDelta fail) ⟨[], [], 0⟩).reqIdx
      = (ds.foldl (stepEvDelta (fun _ => false)) ⟨[], [], 0⟩).reqIdx := by
    rw [s3, s03, s1]
  refine ⟨?_, ?_, ?_⟩
  · rw [synthTexts_startSpeak_cons, synthTexts_startSpeak_cons,
      synthTexts_append, synthTexts_append, synthTexts_append, synthTexts_append,
      s1, hreq, synthTexts_done_singleton]
    rcases Decidable.em ((ds.foldl (stepEvDelta (fun _ => false)) ⟨[], [], 0⟩).pending.isEmpty
        = true) with hp | hp
    · simp [hp]
    · simp only [hp, if_false, Bool.false_eq_true]
      rw [(sendTTS_spec fail _ _).2.2.1, (sendTTS_spec (fun _ => false) _ _).2.2.1]
  · rw [doneCount_startSpeak_cons, doneCount_append, doneCount_append, s5,
      doneCount_done_singleton]
    rcases Decidable.em ((ds.foldl (stepEvDelta (fun _ => false)) ⟨[], [], 0⟩).pending.isEmpty
        = true) with hp | hp
    · simp [hp, doneCount]
    · simp only [hp, if_false, Bool.false_eq_true]
      rw [(sendTTS_spec fail _ _).2.1]
  · rw [audioIdxs_startSpeak_cons, audioIdxs_append, audioIdxs_append, s4, map_zero_add,
      audioIdxs_done_singleton, synthTexts_startSpeak_cons, synthTexts_append,
      synthTexts_append, synthTexts_done_singleton]
    rcases Decidable.em ((ds.foldl (stepEvDelta (fun _ => false)) ⟨[], [], 0⟩).pending.isEmpty
        = true) with hp | hp
    · simp [hp, audioIdxs, synthTexts]
    · simp only [hp, if_false, Bool.false_eq_true]
      rw [(sendTTS_spec fail _ _).2.2.2.2, (sendTTS_spec fail _ _).2.2.1]
      rcases Decidable.em
          ((jsTrim (ds.foldl (stepEvDelta (fun _ => false)) ⟨[], [], 0⟩).pending).isEmpty
            = true) with htr | htr
      · simp [htr]
      · simp only [htr, if_false, Bool.false_eq_true]
        have hn : (ds.foldl (stepEvDelta fail) ⟨[], [], 0⟩).reqIdx
            = (synthTexts (ds.foldl (stepEvDelta fail) ⟨[], [], 0⟩).evs).length := by
          rw [s3]
          omega
        rw [hn]
        simp only [List.append_nil, List.length_append, List.length_cons, List.length_nil,
          Nat.add_zero]
        rw [List.range_succ, List.filter_append]
        rcases Decidable.em
            (fail (synthTexts (ds.foldl (stepEvDelta fail) ⟨[], [], 0⟩).evs).length = true)
            with hn2 | hn2 <;> simp [hn2]


/-- Claim C6 (amended): the start-speaking callback is invoked exactly once
per successful stream, as the very first event, immediately after the
language-model request succeeds and before any text chunk, synthesis request
or scheduled audio buffer, and never when the request fails. It does not wait
for the first audio buffer. -/
theorem start_speaking_once_first (ok : Bool) (ds : List JStr) (fail : Nat → Bool) :
    startSpeakCount (streamEvents ok ds fail) = (if ok = true then 1 else 0) ∧
    (ok = true → (streamEvents ok ds fail).head? = some SEv.startSpeak ∧
      startSpeakCount (streamEvents ok ds fail).tail = 0) := by
  cases ok with
  | false =>
    constructor
    · simp [streamEvents, startSpeakCount]
    · intro h
      cases h
  | true =>
    have d := streamEvents_true_decomp ds fail
    obtain ⟨s1, s2, s3, s4, s5, s6⟩ := foldl_stepEvDelta_spec ds fail [] 0
    have hfin : startSpeakCount
        (if (ds.foldl (stepEvDelta fail) ⟨[], [], 0⟩).pending.isEmpty then []
         else (sendTTS fail (ds.foldl (stepEvDelta fail) ⟨[], [], 0⟩).reqIdx
                (ds.foldl (stepEvDelta fail) ⟨[], [], 0⟩).pending).1) = 0 := by
      rcases Decidable.em ((ds.foldl (stepEvDelta fail) ⟨[], [], 0⟩).pending.isEmpty = true)
          with hp | hp
      · simp [hp, startSpeakCount]
      · simp only [hp, if_false, Bool.false_eq_true]
        exact (sendTTS_spec fail _ _).1
    rw [d]
    refine ⟨?_, fun _ => ⟨rfl, ?_⟩⟩
    · rw [startSpeakCount_startSpeak_cons, startSpeakCount_append, startSpeakCount_append,
        s6, hfin, startSpeakCount_done_singleton]
      simp
    · show startSpeakCount _ = 0
      rw [List.tail_cons, startSpeakCount_append, startSpeakCount_append,
        s6, hfin, startSpeakCount_done_singleton]

/-- Witness for claim C6, at a successful stream over one delta. -/
theorem start_speaking_once_first_witness :
    (startSpeakCount (streamEvents true ["Hi".data] (fun _ => false))
        = (if true = true then 1 else 0)) ∧
    (true = true →
      (streamEvents true ["Hi".data] (fun _ => false)).head? = some SEv.startSpeak ∧
      startSpeakCount (streamEvents true ["Hi".data] (fun _ => false)).tail = 0) :=
  start_speaking_once_first true ["Hi".data] (fun _ => false)

/-- Counterexample for claim C6 as stated: on a successful stream with no
deltas at all, the start-speaking callback fires even though no audio buffer
is ever scheduled and no synthesis request is ever made; on a stream with one
flushed sentence, the callback precedes the first scheduled buffer instead of
coinciding with it. The callback marks the start of the stream, not the first
scheduled audio buffer. -/
theorem start_speaking_without_audio :
    streamEvents true [] (fun _ => false) = [SEv.startSpeak, SEv.completionDone] ∧
    audioIdxs (streamEvents true [] (fun _ => false)) = [] ∧
    synthTexts (streamEvents true [] (fun _ => false)) = [] ∧
    streamEvents true ["Hi!".data] (fun _ => false)
      = [SEv.startSpeak, SEv.textChunk "Hi!".data, SEv.synthRequest "Hi!".data,
         SEv.audioBuf 0, SEv.completionDone] :=
  ⟨by decide, by decide, by decide, by decide⟩

/-- Claim C7: when the language-model request fails outright, the stream
client surfaces the transient-error toast and invokes the completion callback
immediately: no start-speaking callback, no text chunk, no synthesis request
and no audio buffer is produced. Via the completion callback the controller
clears isProcessing and, when the conversation is still active with
permission granted, schedules the listening restart, so it does not stay in
Processing. -/
theorem llm_failure_completes_immediately (ds : List JStr) (fail : Nat → Bool) (s : CState) :
    streamEvents false ds fail = [SEv.toastNetError, SEv.completionDone] ∧
    synthTexts (streamEvents false ds fail) = [] ∧
    audioIdxs (streamEvents false ds fail) = [] ∧
    startSpeakCount (streamEvents false ds fail) = 0 ∧
    doneCount (streamEvents false ds fail) = 1 ∧
    (s.streamInFlight = true →
      (onStreamDone s).1.isProcessing = false ∧
      (s.conversationStarted = true → s.permissionGranted = true →
        Eff.scheduleStart 400 ∈ (onStreamDone s).2)) := by
  refine ⟨rfl, by simp [streamEvents, synthTexts],
    by simp [streamEvents, audioIdxs], by simp [streamEvents, startSpeakCount],
    by simp [streamEvents, doneCount], ?_⟩
  intro hf
  constructor
  · simp only [onStreamDone, hf, if_true]
    split_ifs <;> rfl
  · intro hc hg
    simp [onStreamDone, hf, hc, hg]

/-- Witness for claim C7, at a failing request and a concrete reachable
mid-processing state. -/
theorem llm_failure_completes_immediately_witness :
    streamEvents false ["Hi".data] (fun _ => false)
        = [SEv.toastNetError, SEv.completionDone] ∧
    synthTexts (streamEvents false ["Hi".data] (fun _ => false)) = [] ∧
    audioIdxs (streamEvents false ["Hi".data] (fun _ => false)) = [] ∧
    startSpeakCount (streamEvents false ["Hi".data] (fun _ => false)) = 0 ∧
    doneCount (streamEvents false ["Hi".data] (fun _ => false)) = 1 ∧
    ((runC initState traceSpeak).streamInFlight = true →
      (onStreamDone (runC initState traceSpeak)).1.isProcessing = false ∧
      ((runC initState traceSpeak).conversationStarted = true →
        (runC initState traceSpeak).permissionGranted = true →
        Eff.scheduleStart 400 ∈ (onStreamDone (runC initState traceSpeak)).2)) :=
  llm_failure_completes_immediately ["Hi".data] (fun _ => false) (runC initState traceSpeak)

/-- Claim C9 (amended): the hard-coded expression values of the controller
call sites all lie inside the enumerated closed set, but the value forwarded
after a language-model response is not confined to it: it is the literal
string concerned on request failure, neutral when the response carries no
trailing bracket tag, and otherwise the unvalidated tag text extracted from
the model response, which can be any string (the prompt itself invites sad
and concerned, neither of which is in the enumerated set). -/
theorem expression_provenance (netFail : Bool) (content : JStr) :
    ((generateLLMResponse netFail content).expression = "concerned" ∨
     (generateLLMResponse netFail content).expression = "neutral" ∨
     (tagMatch content).map (fun pr => String.mk pr.2)
        = some (generateLLMResponse netFail content).expression) ∧
    (∀ e ∈ hardCodedExpressions, e ∈ closedExpressionSet) := by
  constructor
  · cases netFail with
    | true =>
      left
      simp [generateLLMResponse]
    | false =>
      simp only [generateLLMResponse, Bool.false_eq_true, if_false]
      cases h : tagMatch content with
      | none =>
        right
        left
        simp [h]
      | some pr =>
        right
        right
        obtain ⟨b, t⟩ := pr
        simp [h]
  · decide

/-- Witness for claim C9, at a failing request. -/
theorem expression_provenance_witness :
    (((generateLLMResponse true "x".data).expression = "concerned" ∨
      (generateLLMResponse true "x".data).expression = "neutral" ∨
      (tagMatch "x".data).map (fun pr => String.mk pr.2)
         = some (generateLLMResponse true "x".data).expression) ∧
     (∀ e ∈ hardCodedExpressions, e ∈ closedExpressionSet)) :=
  expression_provenance true "x".data

/-- Counterexample for claim C9 as stated: the catch branch of
generateLLMResponse hard-codes the expression concerned, which is outside the
enumerated closed set, and the first SpeechProcessor draft forwards it
unchanged to the expression-changed callback; a response tagged sad is
likewise forwarded although sad is not in the set. -/
theorem expression_outside_closed_set :
    (generateLLMResponse true "anything".data).expression = "concerned" ∧
    "concerned" ∉ closedExpressionSet ∧
    forwardedExpression (generateLLMResponse true "anything".data) = some "concerned" ∧
    (generateLLMResponse false "I hear you. [sad]".data).expression = "sad" ∧
    "sad" ∉ closedExpressionSet ∧
    forwardedExpression (generateLLMResponse false "I hear you. [sad]".data) = some "sad" :=
  ⟨by decide, by decide, by decide, by decide, by decide, by decide⟩
